import Mathlib

/-!
Verification of the core of `RobertsCrossFilter::run`
(`src/whitebox_tools/src/tools/image_analysis/roberts_filter.rs`).

The development shallowly embeds the tool's pipeline: argument parsing,
row partitioning and worker dispatch, the per-cell Robert's-cross kernel,
the message-passing result collector, and the optional tail-clip stage.
Machine doubles are modelled as rationals (`ℚ`), so that the sentinel
comparisons and the kernel arithmetic of the source are exact.
-/

/-- Modelled from the spec: the external `RasterView` collaborator (the
`Raster` type is not part of this repository's sources).  A read-only 2-D
numeric grid with a `nodata` sentinel; `rows`/`columns` give its extent and
`data` its in-bounds cell values. -/
structure Grid where
  rows : Nat
  columns : Nat
  nodata : ℚ
  data : Nat → Nat → ℚ

/-- Modelled from the spec: bounds-safe indexed read of the external
`RasterView` — "provides bounds-safe indexed reads that return the sentinel
outside the grid".  Indices are signed (`isize` in the source). -/
def Grid.cell (g : Grid) (row col : Int) : ℚ :=
  if 0 ≤ row ∧ row < (g.rows : Int) ∧ 0 ≤ col ∧ col < (g.columns : Int) then
    g.data row.toNat col.toNat
  else g.nodata

/-- Embedding of the per-cell kernel of `run` (roberts_filter.rs lines
205–216): `z1 = input[(row, col)]`; if `z1 != nodata`, read `z2, z3, z4`,
substitute `z1` for any that equals `nodata`, and produce
`(z1 - z4).abs() + (z2 - z3).abs()`; otherwise the cell keeps its
initialisation value `nodata` (line 204). -/
def kernelCell (g : Grid) (row col : Int) : ℚ :=
  let z1 := g.cell row col
  if z1 ≠ g.nodata then
    let z2 := g.cell row (col + 1)
    let z2 := if z2 = g.nodata then z1 else z2
    let z3 := g.cell (row + 1) col
    let z3 := if z3 = g.nodata then z1 else z3
    let z4 := g.cell (row + 1) (col + 1)
    let z4 := if z4 = g.nodata then z1 else z4
    |z1 - z4| + |z2 - z3|
  else g.nodata

/-- Embedding of one worker iteration for one row (roberts_filter.rs lines
203–219): the row buffer starts as `vec![nodata; columns]` and column `col`
is set exactly when the kernel produces a value, which `kernelCell` already
captures. -/
def kernelRow (g : Grid) (row : Nat) : List ℚ :=
  (List.range g.columns).map (fun col => kernelCell g row (col : Int))

/-- The sequence of grid reads the kernel performs at one cell, following
the control flow of roberts_filter.rs lines 206–212: the center read always
happens; the three neighbour reads happen only when `z1 != nodata`. -/
def cellReads (g : Grid) (row col : Int) : List (Int × Int) :=
  if g.cell row col ≠ g.nodata then
    [(row, col), (row, col + 1), (row + 1, col), (row + 1, col + 1)]
  else [(row, col)]

/-- The output value prescribed by the spec's words (spec.md §4.2): read the
three neighbours, substitute the center `z1` for any neighbour that reads as
`nodata`, and output `|z1 − z4| + |z2 − z3|`.  Stated separately from
`kernelCell` so the source's computation can be compared against it. -/
def robertsSpecValue (g : Grid) (row col : Int) : ℚ :=
  let z1 := g.cell row col
  let sub := fun v => if v = g.nodata then z1 else v
  let z2 := sub (g.cell row (col + 1))
  let z3 := sub (g.cell (row + 1) col)
  let z4 := sub (g.cell (row + 1) (col + 1))
  |z1 - z4| + |z2 - z3|

/-- A concrete 3 × 3 test grid: the 2 × 2 block at the origin holds
`z1=10, z2=20, z3=30, z4=40`; cell `(2,2)` holds the `nodata` sentinel. -/
def testGrid : Grid where
  rows := 3
  columns := 3
  nodata := -32768
  data := fun r c =>
    if r = 0 ∧ c = 0 then 10
    else if r = 0 ∧ c = 1 then 20
    else if r = 1 ∧ c = 0 then 30
    else if r = 1 ∧ c = 1 then 40
    else if r = 2 ∧ c = 2 then -32768
    else 1

/-- Embedding of `row_block_size = rows / num_procs` (roberts_filter.rs
line 187); `isize` division on the nonnegative quantities involved is `Nat`
division. -/
def rowBlockSize (rows numProcs : Nat) : Nat := rows / numProcs

/-- Embedding of the dispatch loop of `run` (roberts_filter.rs lines
189–199): `ending_row` starts at `0`; while `ending_row < rows`, the block
`[id * bs, min (id * bs + bs) rows)` is assigned to a fresh worker and `id`
is incremented.  The source loop has no bound of its own, so the embedding
carries explicit fuel: `none` means the loop was still running when the fuel
ran out. -/
def partitionAux (rows bs : Nat) : Nat → Nat → Nat → Option (List (Nat × Nat))
  | 0, _, endingRow => if endingRow < rows then none else some []
  | fuel + 1, id, endingRow =>
    if endingRow < rows then
      let startingRow := id * bs
      let e0 := startingRow + bs
      let e := if e0 > rows then rows else e0
      (partitionAux rows bs fuel (id + 1) e).map (fun rest => (startingRow, e) :: rest)
    else some []

/-- The row blocks the dispatch loop of `run` hands to workers, with the
given fuel bound. -/
def partition (rows numProcs fuel : Nat) : Option (List (Nat × Nat)) :=
  partitionAux rows (rowBlockSize rows numProcs) fuel 0 0

/-- The dispatch loop terminates (with some fuel) for these dimensions. -/
def dispatchTerminates (rows numProcs : Nat) : Prop :=
  ∃ fuel l, partition rows numProcs fuel = some l

/-- The row indices covered by a list of half-open row blocks, in order. -/
def coveredRows (l : List (Nat × Nat)) : List Nat :=
  l.flatMap (fun p => List.range' p.1 (p.2 - p.1))

/-- The `(row, data)` messages the workers for the given blocks send
(roberts_filter.rs line 218: `tx1.send((row, data))`), in per-block order;
the channel may interleave them arbitrarily across workers. -/
def messagesOfBlocks (g : Grid) (l : List (Nat × Nat)) : List (Nat × List ℚ) :=
  l.flatMap (fun p => (List.range' p.1 (p.2 - p.1)).map (fun row => (row, kernelRow g row)))

/-- Embedding of `output.set_row_data(data.0, data.1)` (roberts_filter.rs
line 225) on the row-indexed view of the output grid: a positional write at
the message's carried row index. -/
def setRowData (out : Nat → List ℚ) (m : Nat × List ℚ) : Nat → List ℚ :=
  fun r => if r = m.1 then m.2 else out r

/-- The output rows after a sequence of collector writes. -/
def applyMessages (msgs : List (Nat × List ℚ)) (out : Nat → List ℚ) : Nat → List ℚ :=
  msgs.foldl setRowData out

/-- Embedding of the collector loop of `run` (roberts_filter.rs lines
223–233): `for row in 0..rows { let data = rx.recv().unwrap(); ... }` —
exactly `rows` receives from the stream of messages, each written
positionally; `none` models the blocked `recv` when the stream is
exhausted.  Returns the final output rows and the unconsumed remainder of
the stream. -/
def collectorRun : Nat → List (Nat × List ℚ) → (Nat → List ℚ) →
    Option ((Nat → List ℚ) × List (Nat × List ℚ))
  | 0, stream, out => some (out, stream)
  | _ + 1, [], _ => none
  | n + 1, m :: stream, out => collectorRun n stream (setRowData out m)

/-- A 1 × 1 grid used to exhibit the degenerate dispatch behaviour. -/
def oneByOneGrid : Grid where
  rows := 1
  columns := 1
  nodata := -32768
  data := fun _ _ => 5

/-- The state the argument loop of `run` builds (roberts_filter.rs lines
120–122): `input_file`, `output_file`, `clip_amount`; strings are embedded
as character lists. -/
structure ParsedConfig where
  input_file : List Char
  output_file : List Char
  clip_amount : ℚ
deriving DecidableEq

/-- Rust `str::replace(pat, "")` for a one-character pattern: delete every
occurrence (roberts_filter.rs lines 124–125 strip the two quote
characters). -/
def stripChar (bad : Char) (s : List Char) : List Char :=
  s.filter (fun c => c ≠ bad)

/-- Rust `str::split` on a one-character separator (roberts_filter.rs line
126), keeping empty pieces, as `split("=")` does. -/
def splitOnChar (sep : Char) : List Char → List (List Char)
  | [] => [[]]
  | c :: rest =>
    match splitOnChar sep rest with
    | [] => [[]]
    | piece :: tail => if c = sep then [] :: piece :: tail else (c :: piece) :: tail

/-- Rust `str::to_lowercase`, used on the flag tokens compared at
roberts_filter.rs lines 132–144. -/
def lowerStr (s : List Char) : List Char := s.map Char.toLower

/-- The possible outcomes of the argument-handling prefix of `run`: a built
configuration, a returned error, or a process panic (an `unwrap` failure or
an out-of-range index). -/
inductive RunParseResult where
  | ok (st : ParsedConfig)
  | err (msg : List Char)
  | panicked
deriving DecidableEq

/-- One iteration of the argument loop of `run` (roberts_filter.rs lines
123–152) at index `i`: strip the quote characters, split on `=`, set
`keyval`, and dispatch on the lowercased first piece.  `none` models a
panic: an out-of-range `args[i + 1]` or a failed
`parse::<f64>().unwrap()` (lines 146 and 148).  The negative-clip guard at
line 150 reads `clip_amount == 0.0;` — a comparison, not an assignment —
so it leaves the state unchanged and has no embedded effect. -/
def processArg (parseNum : List Char → Option ℚ) (args : List (List Char))
    (i : Nat) (st : ParsedConfig) : Option ParsedConfig :=
  let arg := stripChar (Char.ofNat 39) (stripChar (Char.ofNat 34) (args.getD i []))
  let vec := splitOnChar '=' arg
  let keyval := vec.length > 1
  if lowerStr (vec.getD 0 []) = "-i".toList ∨
      lowerStr (vec.getD 0 []) = "--input".toList then
    if keyval then some { st with input_file := vec.getD 1 [] }
    else
      match args[i + 1]? with
      | none => none
      | some v => some { st with input_file := v }
  else if lowerStr (vec.getD 0 []) = "-o".toList ∨
      lowerStr (vec.getD 0 []) = "--output".toList then
    if keyval then some { st with output_file := vec.getD 1 [] }
    else
      match args[i + 1]? with
      | none => none
      | some v => some { st with output_file := v }
  else if lowerStr (vec.getD 0 []) = "-clip".toList ∨
      lowerStr (vec.getD 0 []) = "--clip".toList then
    match (if keyval then some (vec.getD 1 []) else args[i + 1]?) with
    | none => none
    | some v =>
      match parseNum v with
      | none => none
      | some q => some { st with clip_amount := q }
  else some st

/-- The argument loop of `run`, iterating `i` over `0..args.len()`
(roberts_filter.rs line 123), with the remaining iteration count as the
structural argument. -/
def parseLoop (parseNum : List Char → Option ℚ) (args : List (List Char)) :
    Nat → Nat → ParsedConfig → Option ParsedConfig
  | 0, _, st => some st
  | n + 1, i, st =>
    match processArg parseNum args i st with
    | none => none
    | some st' => parseLoop parseNum args n (i + 1) st'

/-- Embedding of the argument-handling prefix of `run` (roberts_filter.rs
lines 114–152): an empty argument list returns an error (lines 115–118);
otherwise the loop runs over every index, starting from empty paths and
`clip_amount = 0.0` (lines 120–122). -/
def parseArgs (parseNum : List Char → Option ℚ) (args : List (List Char)) :
    RunParseResult :=
  if args.length = 0 then .err "Tool run with no paramters.".toList
  else
    match parseLoop parseNum args args.length 0 ⟨[], [], 0⟩ with
    | none => .panicked
    | some st => .ok st

/-- Modelled from the spec: the value of an unsigned decimal numeral
(digits only); the Rust standard library's `str::parse::<f64>` is not part
of this repository's sources. -/
def digitsVal : List Char → Option Nat
  | [] => none
  | l =>
    l.foldl
      (fun acc c => acc.bind (fun n =>
        if c.isDigit then some (10 * n + (c.toNat - 48)) else none))
      (some 0)

/-- Modelled from the spec: magnitude of a decimal numeral, `digits` or
`digits.digits`. -/
def parseDecimalMag (s : List Char) : Option ℚ :=
  match splitOnChar '.' s with
  | [ip] => (digitsVal ip).map (fun n => (n : ℚ))
  | [ip, fp] =>
    (digitsVal ip).bind (fun n =>
      (digitsVal fp).map (fun m => (n : ℚ) + (m : ℚ) / (10 ^ fp.length : ℚ)))
  | _ => none

/-- Modelled from the spec: the external numeric parse applied to a
`--clip` flag value — plain decimal numerals with an optional leading
minus parse exactly; anything else fails. -/
def parseDecimal (s : List Char) : Option ℚ :=
  match s with
  | c :: rest =>
    if c = '-' then (parseDecimalMag rest).map (fun q => -q) else parseDecimalMag s
  | [] => none

/-- Embedding of the clip stage of `run` (roberts_filter.rs lines 235–238):
the external `clip_min_and_max_by_percent` collaborator (abstracted here as
`clipFn`) runs only when `clip_amount > 0.0`; otherwise the grid passes
through untouched. -/
def clipStage (clipFn : Grid → Grid) (clip_amount : ℚ) (output : Grid) : Grid :=
  if clip_amount > 0 then clipFn output else output

/-- The output grid of the parallel phase, with the input's geometry and
sentinel (`Raster::initialize_using_file`, roberts_filter.rs line 184) and
row `r` holding `kernelRow g r`. -/
def outputGrid (g : Grid) : Grid where
  rows := g.rows
  columns := g.columns
  nodata := g.nodata
  data := fun r c => (kernelRow g r).getD c g.nodata

/-- Outcome of a whole `run` invocation: success, or a surfaced I/O
error. -/
inductive RunOutcome where
  | ok
  | ioError (e : List Char)
deriving DecidableEq

/-- Embedding of the I/O skeleton of `run` (roberts_filter.rs lines 176 and
251–258), with the raster collaborators as parameters.  Modelled from the
spec where the collaborators are concerned (`Raster::new`,
`Raster::write` are not part of this repository's sources):
`Raster::new(&input_file, "r")?` propagates an open failure immediately;
after computing and optionally clipping the output, `output.write()` is
matched, with `Err(e)` returned to the caller and `Ok(_)` falling through
to the final `Ok(())`. -/
def runPipeline (openResult : Except (List Char) Grid)
    (writeResult : Grid → Except (List Char) Unit)
    (clipFn : Grid → Grid) (clip_amount : ℚ) : RunOutcome :=
  match openResult with
  | .error e => .ioError e
  | .ok input =>
    let output := clipStage clipFn clip_amount (outputGrid input)
    match writeResult output with
    | .ok _ => .ok
    | .error e => .ioError e

/-- Embedding of the working-directory resolution of `run`
(roberts_filter.rs lines 160–167): when a file name does not contain the
platform path separator, the working directory is prepended. -/
def resolvePath (workingDirectory : List Char) (sep : Char) (file : List Char) : List Char :=
  if sep ∈ file then file else workingDirectory ++ file

/-- Outcome of a whole `run` invocation seen from the caller, argument
handling included: a normal return, a returned `Err(...)` (configuration or
I/O), or a process panic. -/
inductive RunResult where
  | success
  | failure (e : List Char)
  | panicked
deriving DecidableEq

/-- Embedding of the top-level sequencing of `run`: argument handling
(roberts_filter.rs lines 114–152), working-directory resolution of the
input path (lines 160–167), the raster open at line 176 with `?`
propagation, the parallel phase plus clip stage, and the final write
(lines 251–258).  A panic in the argument loop aborts the process before
anything else runs; a returned error from any later stage is a
`RunResult.failure`. -/
def runModel (parseNum : List Char → Option ℚ)
    (openFn : List Char → Except (List Char) Grid)
    (writeFn : Grid → Except (List Char) Unit)
    (clipFn : Grid → Grid)
    (workingDirectory : List Char) (sep : Char)
    (args : List (List Char)) : RunResult :=
  match parseArgs parseNum args with
  | .err e => .failure e
  | .panicked => .panicked
  | .ok st =>
    match runPipeline (openFn (resolvePath workingDirectory sep st.input_file))
        writeFn clipFn st.clip_amount with
    | .ok => .success
    | .ioError e => .failure e

/-- C1: for every cell whose center is not the `nodata` sentinel, the kernel
output equals `|z1 − z4| + |z2 − z3|` with nodata (and out-of-bounds)
neighbours replaced by `z1`; at the concrete 2 × 2 block
`z1=10, z2=20, z3=30, z4=40` the output is `40`. -/
theorem kernel_matches_roberts_spec :
    (∀ (g : Grid) (row col : Int), g.cell row col ≠ g.nodata →
      kernelCell g row col = robertsSpecValue g row col) ∧
    kernelCell testGrid 0 0 = 40 := by
  constructor
  · intro g row col h
    simp only [kernelCell, robertsSpecValue, if_pos h]
  · have h00 : testGrid.cell 0 0 = 10 := by decide
    have h01 : testGrid.cell 0 1 = 20 := by decide
    have h10 : testGrid.cell 1 0 = 30 := by decide
    have h11 : testGrid.cell 1 1 = 40 := by decide
    have hnd : testGrid.nodata = -32768 := rfl
    simp only [kernelCell]
    norm_num [h00, h01, h10, h11, hnd]

/-- Witness for C1 at the concrete test grid. -/
theorem kernel_matches_roberts_spec_witness :
    testGrid.cell 0 0 ≠ testGrid.nodata ∧
    kernelCell testGrid 0 0 = robertsSpecValue testGrid 0 0 :=
  ⟨by decide, kernel_matches_roberts_spec.1 testGrid 0 0 (by decide)⟩

/-- C4: a cell whose center reads as `nodata` produces `nodata`, whatever
the neighbours hold, and the kernel performs no neighbourhood read there
(the only read is the center itself). -/
theorem nodata_center_propagates :
    ∀ (g : Grid) (row col : Int), g.cell row col = g.nodata →
      kernelCell g row col = g.nodata ∧ cellReads g row col = [(row, col)] := by
  intro g row col h
  constructor
  · simp [kernelCell, h]
  · simp [cellReads, h]

/-- Witness for C4 at the in-bounds sentinel cell `(2,2)` of the test
grid. -/
theorem nodata_center_propagates_witness :
    testGrid.cell 2 2 = testGrid.nodata ∧
    (kernelCell testGrid 2 2 = testGrid.nodata ∧
      cellReads testGrid 2 2 = [(2, 2)]) :=
  ⟨by decide, nodata_center_propagates testGrid 2 2 (by decide)⟩

/-- C10: every kernel output cell is either the `nodata` sentinel or a
nonnegative value (a sum of two absolute values). -/
theorem kernel_output_nonneg :
    ∀ (g : Grid) (row col : Int),
      kernelCell g row col = g.nodata ∨ 0 ≤ kernelCell g row col := by
  intro g row col
  by_cases h : g.cell row col ≠ g.nodata
  · right
    simp only [kernelCell, if_pos h]
    positivity
  · left
    simp only [kernelCell, if_neg h]

/-- Helper: once `ending_row` has reached `rows`, the dispatch loop exits at
once, whatever fuel remains. -/
theorem partitionAux_exit (rows bs fuel id endingRow : Nat)
    (h : rows ≤ endingRow) : partitionAux rows bs fuel id endingRow = some [] := by
  cases fuel <;> simp [partitionAux, Nat.not_lt.2 h]

/-- Helper: with a positive block size the dispatch loop terminates and its
blocks tile the remaining row range `[id * bs, rows)` exactly, in order;
every block but the last has size `bs` and the last ends at `rows`. -/
theorem partitionAux_spec (rows bs : Nat) (hbs : 1 ≤ bs) :
    ∀ fuel id, rows - id * bs ≤ fuel →
      ∃ l, partitionAux rows bs fuel id (id * bs) = some l ∧
        coveredRows l = List.range' (id * bs) (rows - id * bs) ∧
        (∀ p ∈ l.dropLast, p.2 - p.1 = bs) ∧
        (∀ p, l.getLast? = some p → p.2 = rows) ∧
        (id * bs < rows → l ≠ []) := by
  intro fuel
  induction fuel with
  | zero =>
    intro id hf
    have h : rows ≤ id * bs := by omega
    refine ⟨[], partitionAux_exit rows bs 0 id _ h, ?_, by simp, by simp, by omega⟩
    simp [coveredRows, Nat.sub_eq_zero_of_le h]
  | succ fuel ih =>
    intro id hf
    by_cases hlt : id * bs < rows
    · have hsucc : (id + 1) * bs = id * bs + bs := by ring
      by_cases hclamp : id * bs + bs > rows
      · -- the block is clamped to `rows`; the next guard check fails
        have hrec : partitionAux rows bs fuel (id + 1) rows = some [] :=
          partitionAux_exit rows bs fuel (id + 1) rows le_rfl
        refine ⟨[(id * bs, rows)], ?_, ?_, by simp, ?_, by simp⟩
        · simp only [partitionAux, if_pos hlt, if_pos hclamp, hrec, Option.map_some']
        · simp [coveredRows]
        · intro p hp
          simp only [List.getLast?_singleton, Option.some.injEq] at hp
          rw [← hp]
      · -- full-size block; the loop continues at `(id + 1) * bs`
        have hle : id * bs + bs ≤ rows := by omega
        have hf' : rows - (id + 1) * bs ≤ fuel := by rw [hsucc]; omega
        obtain ⟨l', hl', hcov', hsz', hlast', hne'⟩ := ih (id + 1) hf'
        rw [hsucc] at hl' hcov' hne'
        refine ⟨(id * bs, id * bs + bs) :: l', ?_, ?_, ?_, ?_, by simp⟩
        · simp only [partitionAux, if_pos hlt, if_neg hclamp, hl', Option.map_some']
        · show List.range' (id * bs) (id * bs + bs - id * bs) ++ coveredRows l' =
            List.range' (id * bs) (rows - id * bs)
          rw [hcov', Nat.add_sub_cancel_left, List.range'_append_1]
          congr 1
          omega
        · intro p hp
          match l', hp with
          | [], hp => simp at hp
          | b :: t, hp =>
            rw [List.dropLast_cons₂] at hp
            rcases List.mem_cons.1 hp with h | h
            · rw [h]; simp
            · exact hsz' p h
        · intro p hp
          match l', hp, hne' with
          | [], hp, hne' =>
            have : rows ≤ id * bs + bs := by
              by_contra hc
              exact (hne' (by omega)) rfl
            simp only [List.getLast?_singleton, Option.some.injEq] at hp
            rw [← hp]
            omega
          | b :: t, hp, _ =>
            rw [List.getLast?_cons_cons] at hp
            exact hlast' p hp
    · have h : rows ≤ id * bs := by omega
      refine ⟨[], partitionAux_exit rows bs _ id _ h, ?_, by simp, by simp, by omega⟩
      simp [coveredRows, Nat.sub_eq_zero_of_le h]

/-- Helper: with block size `0` and a nonempty row range, the dispatch loop
never terminates: no amount of fuel reaches the exit. -/
theorem partitionAux_stuck (rows : Nat) (h : 0 < rows) :
    ∀ fuel id, partitionAux rows 0 fuel id 0 = none := by
  intro fuel
  induction fuel with
  | zero => intro id; simp [partitionAux, h]
  | succ fuel ih =>
    intro id
    simp only [partitionAux, if_pos h, Nat.mul_zero, Nat.add_zero]
    have : ¬ (0 > rows) := by omega
    simp [this, ih]

/-- Helper: the terminating cases of the dispatch loop, packaged for reuse:
when `rows = 0` or `workerCount ≤ rows`, the loop yields blocks tiling
`[0, rows)` with the stated sizes. -/
theorem partition_blocks_spec (rows numProcs : Nat) (h1 : 1 ≤ numProcs)
    (h2 : rows = 0 ∨ numProcs ≤ rows) :
    ∃ l, partition rows numProcs rows = some l ∧
      coveredRows l = List.range rows ∧
      (∀ p ∈ l.dropLast, p.2 - p.1 = rows / numProcs) ∧
      (∀ p, l.getLast? = some p → p.2 = rows) ∧
      (rows = 0 → l = []) := by
  rcases h2 with h0 | hge
  · subst h0
    exact ⟨[], partitionAux_exit 0 _ 0 0 0 le_rfl, by simp [coveredRows],
      by simp, by simp, fun _ => rfl⟩
  · have hpos : 0 < numProcs := h1
    have hbs : 1 ≤ rows / numProcs := Nat.div_pos hge hpos
    obtain ⟨l, hl, hcov, hsz, hlast, _⟩ :=
      partitionAux_spec rows (rows / numProcs) hbs rows 0 (by simp)
    refine ⟨l, ?_, ?_, hsz, hlast, fun h0 => absurd h0 (by omega)⟩
    · simpa [partition, rowBlockSize] using hl
    · rw [hcov]
      simp [List.range_eq_range']

/-- Helper: with `rows = 1` and `workerCount = 2` the truncated block size
is `0` and the dispatch loop never terminates. -/
theorem dispatch_one_two_stuck : ¬ dispatchTerminates 1 2 := by
  rintro ⟨fuel, l, hl⟩
  unfold partition rowBlockSize at hl
  norm_num at hl
  rw [partitionAux_stuck 1 Nat.one_pos fuel 0] at hl
  cases hl

/-- C2 (amended): whenever `rows = 0` or `workerCount ≤ rows` — i.e. the
block size `⌊rows / workerCount⌋` is positive or there is nothing to cover —
the dispatch loop terminates and produces contiguous blocks covering
`[0, rows)` exactly once, in increasing order, with no gaps or overlaps;
every block except the last has size `⌊rows / workerCount⌋`, the last
extends to `rows`, and `rows = 0` yields no blocks.  (For
`0 < rows < workerCount` the loop never terminates; see the
counterexample.) -/
theorem partition_covers (rows numProcs : Nat) (h1 : 1 ≤ numProcs)
    (h2 : rows = 0 ∨ numProcs ≤ rows) :
    ∃ l, partition rows numProcs rows = some l ∧
      coveredRows l = List.range rows ∧
      (∀ p ∈ l.dropLast, p.2 - p.1 = rows / numProcs) ∧
      (∀ p, l.getLast? = some p → p.2 = rows) ∧
      (rows = 0 → l = []) :=
  partition_blocks_spec rows numProcs h1 h2

/-- Witness for C2 at `rows = 10`, `workerCount = 3` (block size 3, blocks
`[0,3) [3,6) [6,9) [9,10)`). -/
theorem partition_covers_witness :
    1 ≤ 3 ∧ ((10 : Nat) = 0 ∨ 3 ≤ 10) ∧
    (∃ l, partition 10 3 10 = some l ∧
      coveredRows l = List.range 10 ∧
      (∀ p ∈ l.dropLast, p.2 - p.1 = 10 / 3) ∧
      (∀ p, l.getLast? = some p → p.2 = 10) ∧
      ((10 : Nat) = 0 → l = [])) :=
  ⟨by decide, by decide, partition_covers 10 3 (by decide) (by decide)⟩

/-- Counterexample for C2 as stated: with `rows = 1` and `workerCount = 2`
the block size truncates to `0` and the dispatch loop never exits — no
sequence of blocks is ever produced, so the partitioner does not cover
`[0, 1)` for this pair. -/
theorem partition_small_grid_diverges : ¬ dispatchTerminates 1 2 :=
  dispatch_one_two_stuck

/-- Helper: the row indices carried by the workers' messages are exactly the
rows covered by their blocks, in order. -/
theorem messagesOfBlocks_keys (g : Grid) (l : List (Nat × Nat)) :
    (messagesOfBlocks g l).map Prod.fst = coveredRows l := by
  simp [messagesOfBlocks, coveredRows, List.map_flatMap, List.map_map, Function.comp_def]

/-- Helper: every message a worker sends carries the kernel output for its
own row index. -/
theorem messagesOfBlocks_mem (g : Grid) (l : List (Nat × Nat)) :
    ∀ p ∈ messagesOfBlocks g l, p.2 = kernelRow g p.1 := by
  intro p hp
  simp only [messagesOfBlocks, List.mem_flatMap, List.mem_map] at hp
  obtain ⟨_, _, _, _, rfl⟩ := hp
  rfl

/-- Helper: a row no message mentions keeps its previous contents through
the collector's writes. -/
theorem applyMessages_not_mem (msgs : List (Nat × List ℚ)) (out : Nat → List ℚ)
    (r : Nat) (h : r ∉ msgs.map Prod.fst) : applyMessages msgs out r = out r := by
  induction msgs generalizing out with
  | nil => rfl
  | cons m rest ih =>
    simp only [List.map_cons, List.mem_cons, not_or] at h
    show applyMessages rest (setRowData out m) r = out r
    rw [ih _ h.2]
    simp [setRowData, h.1]

/-- Helper: when every message carries a distinct row index, the collector
leaves row `r` holding the data of the unique message tagged `r`, whatever
the arrival order was. -/
theorem applyMessages_mem (msgs : List (Nat × List ℚ)) (out : Nat → List ℚ)
    (r : Nat) (d : List ℚ) (hnd : (msgs.map Prod.fst).Nodup)
    (h : (r, d) ∈ msgs) : applyMessages msgs out r = d := by
  induction msgs generalizing out with
  | nil => cases h
  | cons m rest ih =>
    simp only [List.map_cons, List.nodup_cons] at hnd
    rcases List.mem_cons.1 h with heq | hmem
    · subst heq
      show applyMessages rest (setRowData out (r, d)) r = d
      rw [applyMessages_not_mem rest _ r hnd.1]
      simp [setRowData]
    · exact ih (setRowData out m) hnd.2 hmem

/-- Helper: fed a stream holding exactly `rows` messages, the collector loop
returns after consuming the whole stream, having applied every write. -/
theorem collectorRun_complete (rows : Nat) :
    ∀ (stream : List (Nat × List ℚ)) (out : Nat → List ℚ), stream.length = rows →
      collectorRun rows stream out = some (applyMessages stream out, []) := by
  induction rows with
  | zero =>
    intro stream out h
    rw [List.length_eq_zero.1 h]
    rfl
  | succ n ih =>
    intro stream out h
    match stream with
    | [] => simp at h
    | m :: rest =>
      show collectorRun n rest (setRowData out m) = _
      exact ih rest (setRowData out m) (by simpa using h)

/-- Helper: for blocks that tile `[0, rows)`, any arrival order of the
workers' messages leaves every row `r < rows` holding `kernelRow g r` after
the collector's positional writes. -/
theorem applyMessages_of_perm (g : Grid) (l : List (Nat × Nat))
    (hcov : coveredRows l = List.range g.rows)
    (msgs : List (Nat × List ℚ)) (hperm : msgs.Perm (messagesOfBlocks g l))
    (out : Nat → List ℚ) (r : Nat) (hr : r < g.rows) :
    applyMessages msgs out r = kernelRow g r := by
  have hkperm : (msgs.map Prod.fst).Perm (List.range g.rows) := by
    rw [← hcov, ← messagesOfBlocks_keys]
    exact hperm.map Prod.fst
  have hnd : (msgs.map Prod.fst).Nodup :=
    hkperm.nodup_iff.2 (List.nodup_range g.rows)
  have hrmem : r ∈ msgs.map Prod.fst :=
    hkperm.mem_iff.2 (List.mem_range.2 hr)
  obtain ⟨p, hpmem, hpr⟩ := List.mem_map.1 hrmem
  have hshape : p.2 = kernelRow g p.1 :=
    messagesOfBlocks_mem g l p (hperm.subset hpmem)
  have hpeq : p = (r, kernelRow g r) := by
    obtain ⟨p1, p2⟩ := p
    simp only at hpr hshape
    rw [hpr] at hshape ⊢
    rw [hshape]
  rw [hpeq] at hpmem
  exact applyMessages_mem msgs out r _ hnd hpmem

/-- C3 (amended): whenever `rows = 0` or `workerCount ≤ rows` (the cases in
which the dispatch loop terminates), finitely many workers are spawned and
they collectively send exactly `rows` messages — one per row index of
`[0, rows)` — and, for any arrival order, the collector consumes exactly
`rows` messages (the whole stream) and then returns.  (For
`0 < rows < workerCount` the dispatch loop itself never terminates; see the
counterexample.) -/
theorem dispatch_and_collector_balance (g : Grid) (numProcs : Nat)
    (h1 : 1 ≤ numProcs) (h2 : g.rows = 0 ∨ numProcs ≤ g.rows) :
    ∃ l, partition g.rows numProcs g.rows = some l ∧
      (messagesOfBlocks g l).map Prod.fst = List.range g.rows ∧
      (messagesOfBlocks g l).length = g.rows ∧
      (∀ stream, stream.Perm (messagesOfBlocks g l) → ∀ out,
        ∃ final, collectorRun g.rows stream out = some (final, [])) := by
  obtain ⟨l, hl, hcov, -, -, -⟩ := partition_blocks_spec g.rows numProcs h1 h2
  have hkeys : (messagesOfBlocks g l).map Prod.fst = List.range g.rows := by
    rw [messagesOfBlocks_keys, hcov]
  have hlen : (messagesOfBlocks g l).length = g.rows := by
    have h := congrArg List.length hkeys
    simpa using h
  refine ⟨l, hl, hkeys, hlen, fun stream hperm out => ?_⟩
  exact ⟨_, collectorRun_complete g.rows stream out (by rw [hperm.length_eq, hlen])⟩

/-- Witness for C3 at the 3 × 3 test grid with 3 workers. -/
theorem dispatch_and_collector_balance_witness :
    1 ≤ 3 ∧ (testGrid.rows = 0 ∨ 3 ≤ testGrid.rows) ∧
    (∃ l, partition testGrid.rows 3 testGrid.rows = some l ∧
      (messagesOfBlocks testGrid l).map Prod.fst = List.range testGrid.rows ∧
      (messagesOfBlocks testGrid l).length = testGrid.rows ∧
      (∀ stream, stream.Perm (messagesOfBlocks testGrid l) → ∀ out,
        ∃ final, collectorRun testGrid.rows stream out = some (final, []))) :=
  ⟨by decide, by decide, dispatch_and_collector_balance testGrid 3 (by decide) (by decide)⟩

/-- Counterexample for C3 as stated: for a 1-row grid and a worker count of
2, the partition/dispatch phase never terminates, so the workers do not
collectively send one message per row and the collector never returns. -/
theorem dispatch_hangs_one_row_grid : ¬ dispatchTerminates oneByOneGrid.rows 2 :=
  dispatch_one_two_stuck

/-- C5 (amended): whenever both runs' dispatch loops terminate — `rows = 0`
or `workerCount ≤ rows` — the output is independent of the partitioning and
of the arrival order of the `(rowIndex, values)` messages: for any
interleaving of the `N`-worker messages, every row `r < rows` of the output
equals the corresponding row of the 1-worker run, both being
`kernelRow g r`, because each message is written positionally at its
carried row index.  (For `0 < rows < workerCount` the `N`-worker dispatch
loop never terminates while the 1-worker run completes; see the
counterexample.) -/
theorem parallel_equals_sequential (g : Grid) (numProcs : Nat)
    (h1 : 1 ≤ numProcs) (h2 : g.rows = 0 ∨ numProcs ≤ g.rows) :
    ∃ lN l1, partition g.rows numProcs g.rows = some lN ∧
      partition g.rows 1 g.rows = some l1 ∧
      ∀ msgs, msgs.Perm (messagesOfBlocks g lN) →
        ∀ out out1 r, r < g.rows →
          applyMessages msgs out r = applyMessages (messagesOfBlocks g l1) out1 r ∧
          applyMessages msgs out r = kernelRow g r := by
  have h2' : g.rows = 0 ∨ 1 ≤ g.rows := by omega
  obtain ⟨lN, hlN, hcovN, -, -, -⟩ := partition_blocks_spec g.rows numProcs h1 h2
  obtain ⟨l1, hl1, hcov1, -, -, -⟩ := partition_blocks_spec g.rows 1 le_rfl h2'
  refine ⟨lN, l1, hlN, hl1, fun msgs hperm out out1 r hr => ?_⟩
  have hN : applyMessages msgs out r = kernelRow g r :=
    applyMessages_of_perm g lN hcovN msgs hperm out r hr
  have h1' : applyMessages (messagesOfBlocks g l1) out1 r = kernelRow g r :=
    applyMessages_of_perm g l1 hcov1 (messagesOfBlocks g l1) (List.Perm.refl _) out1 r hr
  exact ⟨by rw [hN, h1'], hN⟩

/-- Witness for C5 at the 3 × 3 test grid with 3 workers. -/
theorem parallel_equals_sequential_witness :
    1 ≤ 3 ∧ (testGrid.rows = 0 ∨ 3 ≤ testGrid.rows) ∧
    (∃ lN l1, partition testGrid.rows 3 testGrid.rows = some lN ∧
      partition testGrid.rows 1 testGrid.rows = some l1 ∧
      ∀ msgs, msgs.Perm (messagesOfBlocks testGrid lN) →
        ∀ out out1 r, r < testGrid.rows →
          applyMessages msgs out r =
            applyMessages (messagesOfBlocks testGrid l1) out1 r ∧
          applyMessages msgs out r = kernelRow testGrid r) :=
  ⟨by decide, by decide, parallel_equals_sequential testGrid 3 (by decide) (by decide)⟩

/-- Counterexample for C5 as stated: for the 1 × 1 grid, the 1-worker run's
dispatch terminates, but the 2-worker run's dispatch loop never does, so the
two configurations do not produce identical (or indeed any) output grids for
every `N ≥ 1`. -/
theorem parallel_runs_differ_one_row_grid :
    dispatchTerminates oneByOneGrid.rows 1 ∧
    ¬ dispatchTerminates oneByOneGrid.rows 2 :=
  ⟨⟨1, [(0, 1)], by decide⟩, dispatch_one_two_stuck⟩

/-- C6 (the code at the failing input): parsing `--clip=-5` leaves
`clip_amount = -5`, not `0.0` — the negative-value guard at
roberts_filter.rs line 150 is the comparison `clip_amount == 0.0;`, not an
assignment, so the negative value persists as the effective parameter for
the rest of the run (it is, for instance, recorded in the metadata at line
245); only the clip stage's own `> 0.0` test keeps the clip from
running. -/
theorem negative_clip_guard_is_noop :
    parseArgs parseDecimal ["--clip=-5".toList] = RunParseResult.ok ⟨[], [], -5⟩ ∧
    (-5 : ℚ) ≠ 0 ∧
    ∀ (clipFn : Grid → Grid) (g : Grid), clipStage clipFn (-5) g = g := by
  refine ⟨by decide, by decide, fun clipFn g => ?_⟩
  simp [clipStage, show ¬ ((-5 : ℚ) > 0) by decide]

/-- C7: when the clip parameter is not strictly positive, the clip stage is
not activated and the output grid passes through unchanged — every cell
keeps the value the collector gave it, whatever the external clip
collaborator would have done. -/
theorem clip_skipped_when_nonpositive (clipFn : Grid → Grid) (clip_amount : ℚ)
    (g : Grid) (h : clip_amount ≤ 0) : clipStage clipFn clip_amount g = g := by
  simp [clipStage, not_lt.2 h]

/-- Witness for C7 at `clip = 0` with a collaborator that would replace the
grid wholesale if it ran. -/
theorem clip_skipped_when_nonpositive_witness :
    (0 : ℚ) ≤ 0 ∧ clipStage (fun _ => oneByOneGrid) 0 testGrid = testGrid :=
  ⟨by decide, clip_skipped_when_nonpositive (fun _ => oneByOneGrid) 0 testGrid (by decide)⟩

/-- Counterexample for C8 as stated: for the argument list `["--clip=abc"]`
— whose clip value fails to parse, and in which both required paths are
missing — `run` does not surface a returned configuration error: the
`unwrap` at roberts_filter.rs line 146 panics instead. -/
theorem clip_parse_failure_not_an_error :
    ¬ ∃ msg, parseArgs parseDecimal ["--clip=abc".toList] = RunParseResult.err msg := by
  rintro ⟨msg, h⟩
  have hp : parseArgs parseDecimal ["--clip=abc".toList] = RunParseResult.panicked := by
    decide
  rw [hp] at h
  cases h

/-- Helper: argument handling returns an error result exactly for the
empty argument list (roberts_filter.rs lines 115–118 are the only `return
Err` of the prefix; the loop itself can only succeed or panic). -/
theorem parseArgs_err_iff (parseNum : List Char → Option ℚ)
    (args : List (List Char)) :
    (∃ msg, parseArgs parseNum args = RunParseResult.err msg) ↔ args = [] := by
  constructor
  · rintro ⟨msg, h⟩
    by_contra hne
    have hlen : ¬ args.length = 0 := by simpa using hne
    unfold parseArgs at h
    rw [if_neg hlen] at h
    cases hloop : parseLoop parseNum args args.length 0 ⟨[], [], 0⟩ with
    | none => rw [hloop] at h; cases h
    | some st => rw [hloop] at h; cases h
  · rintro rfl
    exact ⟨_, rfl⟩

/-- Helper: if some iteration of the argument loop panics (for every
accumulated state), the whole loop panics. -/
theorem parseLoop_panics (parseNum : List Char → Option ℚ)
    (args : List (List Char)) :
    ∀ n i st,
      (∃ j, i ≤ j ∧ j < i + n ∧ ∀ st', processArg parseNum args j st' = none) →
      parseLoop parseNum args n i st = none := by
  intro n
  induction n with
  | zero =>
    rintro i st ⟨j, h1, h2, -⟩
    omega
  | succ n ih =>
    rintro i st ⟨j, h1, h2, hnone⟩
    show (match processArg parseNum args i st with
      | none => none
      | some st' => parseLoop parseNum args n (i + 1) st') = none
    rcases eq_or_lt_of_le h1 with rfl | hgt
    · rw [hnone st]
    · cases hpa : processArg parseNum args i st with
      | none => rfl
      | some st' => exact ih (i + 1) st' ⟨j, by omega, by omega, hnone⟩

/-- Helper: a panicking iteration at any in-range index makes the whole
argument handling panic. -/
theorem parseArgs_panics (parseNum : List Char → Option ℚ)
    (args : List (List Char)) (i : Nat) (hi : i < args.length)
    (hnone : ∀ st, processArg parseNum args i st = none) :
    parseArgs parseNum args = RunParseResult.panicked := by
  have hlen : ¬ args.length = 0 := by omega
  unfold parseArgs
  rw [if_neg hlen,
    parseLoop_panics parseNum args args.length 0 ⟨[], [], 0⟩
      ⟨i, Nat.zero_le i, by omega, hnone⟩]

/-- Helper: the split never yields the empty list of pieces. -/
theorem splitOnChar_ne_nil (sep : Char) (s : List Char) :
    splitOnChar sep s ≠ [] := by
  cases s with
  | nil => simp [splitOnChar]
  | cons c rest =>
    simp only [splitOnChar]
    rcases h : splitOnChar sep rest with - | ⟨piece, tail⟩
    · simp
    · by_cases hc : c = sep <;> simp [hc]

/-- Helper: a separator-free string is returned whole. -/
theorem splitOnChar_not_mem (sep : Char) (s : List Char) (h : sep ∉ s) :
    splitOnChar sep s = [s] := by
  induction s with
  | nil => rfl
  | cons c rest ih =>
    have hc : ¬ c = sep := fun he => h (by simp [he])
    have hr : sep ∉ rest := fun hm => h (List.mem_cons_of_mem _ hm)
    simp only [splitOnChar, ih hr]
    rw [if_neg hc]

/-- Helper: splitting at the first separator after a separator-free
prefix. -/
theorem splitOnChar_append (sep : Char) (a b : List Char) (h : sep ∉ a) :
    splitOnChar sep (a ++ sep :: b) = a :: splitOnChar sep b := by
  induction a with
  | nil =>
    show splitOnChar sep (sep :: b) = [] :: splitOnChar sep b
    simp only [splitOnChar]
    rcases hb : splitOnChar sep b with - | ⟨piece, tail⟩
    · exact absurd hb (splitOnChar_ne_nil sep b)
    · simp
  | cons c a' ih =>
    have hc : ¬ c = sep := fun he => h (by simp [he])
    have ha' : sep ∉ a' := fun hm => h (List.mem_cons_of_mem _ hm)
    show splitOnChar sep (c :: (a' ++ sep :: b)) = (c :: a') :: splitOnChar sep b
    simp only [splitOnChar, ih ha']
    rw [if_neg hc]

/-- Helper: stripping a character that does not occur is the identity. -/
theorem stripChar_not_mem (bad : Char) (s : List Char) (h : bad ∉ s) :
    stripChar bad s = s := by
  unfold stripChar
  rw [List.filter_eq_self]
  intro a ha
  simp only [ne_eq, decide_eq_true_eq]
  exact fun he => h (he ▸ ha)

/-- Helper: an argument token `--clip=<v>` whose value `v` (free of `=` and
of the two quote characters) fails the numeric parse makes that loop
iteration panic, whatever state it is given — the embedded
`parse::<f64>().unwrap()` of roberts_filter.rs line 146. -/
theorem processArg_clip_fail (parseNum : List Char → Option ℚ)
    (args : List (List Char)) (i : Nat) (v : List Char)
    (harg : args.getD i [] = "--clip=".toList ++ v)
    (h1 : '=' ∉ v) (h2 : Char.ofNat 34 ∉ v) (h3 : Char.ofNat 39 ∉ v)
    (hp : parseNum v = none) :
    ∀ st, processArg parseNum args i st = none := by
  intro st
  have e34 : stripChar (Char.ofNat 34) ("--clip=".toList ++ v) = "--clip=".toList ++ v :=
    stripChar_not_mem _ _ (by
      simp only [List.mem_append, not_or]
      exact ⟨by decide, h2⟩)
  have e39 : stripChar (Char.ofNat 39) ("--clip=".toList ++ v) = "--clip=".toList ++ v :=
    stripChar_not_mem _ _ (by
      simp only [List.mem_append, not_or]
      exact ⟨by decide, h3⟩)
  have hsplit : splitOnChar '=' ("--clip=".toList ++ v) = ["--clip".toList, v] := by
    have hdec : "--clip=".toList ++ v = "--clip".toList ++ '=' :: v := by
      rw [show "--clip=".toList = "--clip".toList ++ ['='] from by decide,
        List.append_assoc]
      rfl
    rw [hdec, splitOnChar_append '=' _ _ (by decide), splitOnChar_not_mem '=' v h1]
  unfold processArg
  rw [harg, e34, e39]
  simp only [hsplit, List.getD_cons_zero, List.getD_cons_succ]
  rw [if_neg (by decide), if_neg (by decide), if_pos (by decide)]
  conv_lhs => whnf
  rw [hp]

/-- C8 (amended): for every numeric parser and argument list, `run` returns
an error result exactly when the argument list is empty — in particular a
missing required input/output path is never detected during argument
handling, which can only succeed or panic on a nonempty list; every
argument list containing a `--clip=<value>` token whose value fails the
numeric parse makes `run` panic (the `unwrap`), not return an error; and
when argument handling succeeds, the first failure surfaces only later, at
the raster open: an open error on the resolved stored input path is
returned as the run's failure result. -/
theorem arg_handling_behaviour :
    (∀ (parseNum : List Char → Option ℚ) (args : List (List Char)),
      (∃ msg, parseArgs parseNum args = RunParseResult.err msg) ↔ args = []) ∧
    (∀ (parseNum : List Char → Option ℚ) (args : List (List Char)) (i : Nat)
      (v : List Char), i < args.length →
      args.getD i [] = "--clip=".toList ++ v →
      '=' ∉ v → Char.ofNat 34 ∉ v → Char.ofNat 39 ∉ v →
      parseNum v = none →
      parseArgs parseNum args = RunParseResult.panicked) ∧
    (∀ (parseNum : List Char → Option ℚ)
      (openFn : List Char → Except (List Char) Grid)
      (writeFn : Grid → Except (List Char) Unit) (clipFn : Grid → Grid)
      (wd : List Char) (sep : Char) (args : List (List Char))
      (st : ParsedConfig) (e : List Char),
      parseArgs parseNum args = RunParseResult.ok st →
      openFn (resolvePath wd sep st.input_file) = Except.error e →
      runModel parseNum openFn writeFn clipFn wd sep args = RunResult.failure e) := by
  refine ⟨parseArgs_err_iff, ?_, ?_⟩
  · intro parseNum args i v hi harg h1 h2 h3 hp
    exact parseArgs_panics parseNum args i hi
      (processArg_clip_fail parseNum args i v harg h1 h2 h3 hp)
  · intro parseNum openFn writeFn clipFn wd sep args st e hparse hopen
    unfold runModel
    rw [hparse]
    show (match runPipeline (openFn (resolvePath wd sep st.input_file))
        writeFn clipFn st.clip_amount with
      | RunOutcome.ok => RunResult.success
      | RunOutcome.ioError e => RunResult.failure e) = RunResult.failure e
    rw [hopen]
    rfl

/-- Witness for C8: the empty list errs; the concrete list
`["--clip=abc"]` panics; and with both paths missing yet a well-formed
`-o=out.dep` token, parsing succeeds and a failing open of the resolved
(empty) input path is the run's returned failure. -/
theorem arg_handling_behaviour_witness :
    (∃ msg, parseArgs parseDecimal [] = RunParseResult.err msg) ∧
    parseArgs parseDecimal ["--clip=abc".toList] = RunParseResult.panicked ∧
    runModel parseDecimal (fun _ => Except.error "open failed".toList)
        (fun _ => Except.ok ()) (fun g => g) "wd".toList (Char.ofNat 47)
        ["-o=out.dep".toList] = RunResult.failure "open failed".toList :=
  ⟨(arg_handling_behaviour.1 parseDecimal []).2 rfl,
   arg_handling_behaviour.2.1 parseDecimal ["--clip=abc".toList] 0 "abc".toList
     (by decide) (by decide) (by decide) (by decide) (by decide) (by decide),
   arg_handling_behaviour.2.2 parseDecimal
     (fun _ => Except.error "open failed".toList) (fun _ => Except.ok ())
     (fun g => g) "wd".toList (Char.ofNat 47) ["-o=out.dep".toList]
     ⟨[], "out.dep".toList, 0⟩ "open failed".toList (by decide) rfl⟩

/-- C9: `run` returns success only when the output write completed; an I/O
error surfaced by the raster collaborator — failing to open the input, or
failing to write the output — is returned to the caller as a failure
result carrying that error. -/
theorem run_success_requires_completed_write
    (openResult : Except (List Char) Grid)
    (writeResult : Grid → Except (List Char) Unit)
    (clipFn : Grid → Grid) (clip_amount : ℚ) :
    (runPipeline openResult writeResult clipFn clip_amount = RunOutcome.ok →
      ∃ input, openResult = Except.ok input ∧
        writeResult (clipStage clipFn clip_amount (outputGrid input)) =
          Except.ok ()) ∧
    (∀ e, openResult = Except.error e →
      runPipeline openResult writeResult clipFn clip_amount =
        RunOutcome.ioError e) ∧
    (∀ input e, openResult = Except.ok input →
      writeResult (clipStage clipFn clip_amount (outputGrid input)) =
        Except.error e →
      runPipeline openResult writeResult clipFn clip_amount =
        RunOutcome.ioError e) := by
  refine ⟨?_, ?_, ?_⟩
  · intro h
    cases hop : openResult with
    | error e => rw [hop] at h; simp [runPipeline] at h
    | ok input =>
      rw [hop] at h
      refine ⟨input, rfl, ?_⟩
      cases hw : writeResult (clipStage clipFn clip_amount (outputGrid input)) with
      | ok u => cases u; rfl
      | error e => simp [runPipeline, hw] at h
  · intro e he
    rw [he]
    rfl
  · intro input e hop hw
    rw [hop]
    simp [runPipeline, hw]

/-- Witness for C9: concrete collaborators exhibiting both failure
directions — a failed write and a failed open are each returned as that
very error. -/
theorem run_success_requires_completed_write_witness :
    runPipeline (Except.ok oneByOneGrid)
        (fun _ => Except.error "disk full".toList) (fun g => g) 0 =
      RunOutcome.ioError "disk full".toList ∧
    runPipeline (Except.error "missing input".toList)
        (fun _ => Except.ok ()) (fun g => g) 0 =
      RunOutcome.ioError "missing input".toList :=
  ⟨(run_success_requires_completed_write (Except.ok oneByOneGrid)
      (fun _ => Except.error "disk full".toList) (fun g => g) 0).2.2
        oneByOneGrid "disk full".toList rfl rfl,
   (run_success_requires_completed_write (Except.error "missing input".toList)
      (fun _ => Except.ok ()) (fun g => g) 0).2.1 "missing input".toList rfl⟩
